import Mathlib

set_option autoImplicit false

/-!
# Verification of the job-scraper ingestion core

A shallow embedding, in Lean 4, of the core of the `job-scraper` Go
repository: the common job record (`internal/models/job.go`), the
deduplicator (exact hashing and Jaccard string similarity), the retry
backoff computation, the per-source token-pool rate limiter, the
source adapters' field mapping, and the orchestrator cycle
`ScrapeAllSources` with its metrics updates and the persistence stage
`saveJobs`.

Modelling conventions:
* Go `time.Duration` values are modelled as `Int` nanosecond counts;
  the one `float64` computation (backoff) is modelled with exact
  rationals and an explicit floor, matching Go's float-to-integer
  truncation on the non-negative values that occur there.
* Go string primitives (`strings.ToLower`, `strings.TrimSpace`,
  `strings.Fields`) are modelled at the character-list level with
  structural recursion; on the ASCII data these functions agree with
  the Go originals.
* Go maps used as sets (`map[string]bool`) are modelled as `List String`
  with membership; the Go map with zero-value defaulting
  (`map[string]SourceMetrics`) is modelled as a total function.
* Wall-clock readings (`time.Now`, response times, scrape timestamps)
  are not modelled; the fields that hold them are either omitted or
  taken as inputs.
-/

/-! ## Go string primitives -/

/-- Go `strings.ToLower` (ASCII fragment), character by character. -/
def lowerStr (s : String) : String := ⟨s.data.map Char.toLower⟩

/-- Go `strings.TrimSpace`: drop leading and trailing whitespace. -/
def trimStr (s : String) : String :=
  ⟨((s.data.dropWhile Char.isWhitespace).reverse.dropWhile Char.isWhitespace).reverse⟩

/-- Splitting a character list at whitespace runs, accumulating the
current word in reverse; helper for `goFields`. -/
def fieldsAux (acc : List Char) : List Char → List (List Char)
  | [] => if acc = [] then [] else [acc.reverse]
  | c :: cs =>
    if c.isWhitespace then
      if acc = [] then fieldsAux [] cs else acc.reverse :: fieldsAux [] cs
    else fieldsAux (c :: acc) cs

/-- Go `strings.Fields`: the whitespace-separated words of `s`, with no
empty words. -/
def goFields (s : String) : List String := (fieldsAux [] s.data).map String.mk

/-- Is the first character list a leading segment of the second? -/
def leadsList : List Char → List Char → Bool
  | [], _ => true
  | _ :: _, [] => false
  | a :: as, b :: bs => a == b && leadsList as bs

/-- Does `sub` occur contiguously inside `l`? -/
def containsAux (sub : List Char) : List Char → Bool
  | [] => sub.isEmpty
  | c :: cs => leadsList sub (c :: cs) || containsAux sub cs

/-- Go `strings.Contains`, via the character lists. -/
def goContains (s sub : String) : Bool := containsAux sub.data s.data

/-! ## Data model -/

/-- Common job record (`internal/models/job.go`, `models.Job`).
`postedDate` is an abstract optional timestamp; the store-stamped
`ScrapedAt` wall-clock field is not modelled. -/
structure Job where
  title : String
  company : String
  location : String
  url : String
  description : String
  salary : String
  postedDate : Option Nat
  source : String
  jobCategory : String
  jobType : String
deriving Repr, DecidableEq

/-! ## Deduplicator (`deduplicator.go`) -/

/-- Deduplicator state: the `seenJobs map[string]bool` set of
already-seen composite keys, modelled as a list of keys. -/
structure Deduplicator where
  seenJobs : List String
deriving Repr, DecidableEq

/-- `NewDeduplicator` starts with an empty seen set. -/
def NewDeduplicator : Deduplicator := ⟨[]⟩

/-- `generateJobHash`: lower-cased, whitespace-trimmed title, company and
location joined with `|`. The Go code additionally MD5s this composite
key; the digest is a deterministic function of the key and the code
relies on its collision-freedom, so the model uses the composite key
itself as the hash value. -/
def generateJobHash (job : Job) : String :=
  let title := lowerStr (trimStr job.title)
  let company := lowerStr (trimStr job.company)
  let location := lowerStr (trimStr job.location)
  title ++ "|" ++ company ++ "|" ++ location

/-- The loop body of `RemoveDuplicates`: walk the batch in order, keep a
record whose hash is unseen and mark the hash seen, drop a record whose
hash is already seen. Returns the final seen set and the kept records. -/
def removeDuplicatesAux (seen : List String) : List Job → List String × List Job
  | [] => (seen, [])
  | job :: rest =>
    let hash := generateJobHash job
    if hash ∈ seen then
      removeDuplicatesAux seen rest
    else
      let r := removeDuplicatesAux (hash :: seen) rest
      (r.1, job :: r.2)

/-- `Deduplicator.RemoveDuplicates`: filters the batch against, and
updates, the deduplicator's persistent seen set. -/
def RemoveDuplicates (d : Deduplicator) (jobs : List Job) : Deduplicator × List Job :=
  let r := removeDuplicatesAux d.seenJobs jobs
  (⟨r.1⟩, r.2)

/-- `Deduplicator.IsDuplicate`: pure lookup of the job's hash in the seen
set, no mutation. -/
def IsDuplicate (d : Deduplicator) (job : Job) : Bool :=
  generateJobHash job ∈ d.seenJobs

/-- `Deduplicator.Reset`: clears the seen set. -/
def Reset (_ : Deduplicator) : Deduplicator := ⟨[]⟩

/-- `stringSimilarity`: Jaccard word-set similarity. The identity check
comes first, then the either-empty check, then the word-set computation.
The Go float64 quotient of the two small integer counts is modelled as an
exact rational; the counts are order-independent, so iterating the Go map
`set2` is modelled by filtering the deduplicated word set. -/
def stringSimilarity (s1 s2 : String) : ℚ :=
  if s1 = s2 then 1
  else if s1 = "" ∨ s2 = "" then 0
  else
    let words1 := goFields (lowerStr s1)
    let words2 := goFields (lowerStr s2)
    if words1 = [] ∨ words2 = [] then 0
    else
      let set1 := words1.toFinset
      let set2 := words2.toFinset
      let intersection := (set2.filter (fun w => w ∈ set1)).card
      let union := set1.card + (set2.filter (fun w => w ∉ set1)).card
      if union = 0 then 0
      else (intersection : ℚ) / (union : ℚ)

/-! ## Retry backoff (`power_scraper.go`) -/

/-- Retry configuration (`RetryConfig`); delays are nanosecond counts, the
factor is the exact rational value of the Go `float64`. -/
structure RetryConfig where
  maxRetries : Nat
  initialDelay : Int
  maxDelay : Int
  backoffFactor : ℚ

/-- The defaults installed by `NewPowerScraper`: 3 retries, 1s initial
delay, 30s cap, factor 2.0. -/
def defaultRetryConfig : RetryConfig where
  maxRetries := 3
  initialDelay := 1000000000
  maxDelay := 30000000000
  backoffFactor := 2

/-- `calculateBackoffDelay`:
`time.Duration(float64(initialDelay) * float64(attempt) * backoffFactor)`,
then capped at `maxDelay`. The float product is exact at the magnitudes
the program uses and Go's float-to-int64 conversion truncates, which on
these non-negative values is the floor. -/
def calculateBackoffDelay (cfg : RetryConfig) (attempt : Nat) : Int :=
  let delay : Int := ⌊(cfg.initialDelay : ℚ) * (attempt : ℚ) * cfg.backoffFactor⌋
  if cfg.maxDelay < delay then cfg.maxDelay else delay

/-! ## Per-source rate limiter (`rate_limiter.go`)

A `sourceLimiter` owns a buffered channel of capacity
`requestsPerMinute`, pre-filled with that many tokens by `getLimiter`;
`Wait` receives one token per admitted request, and the refill goroutine
performs, once per ticker period, a non-blocking send that is dropped
when the channel is full. The channel is modelled by its token count and
the channel operations as steps of a transition system; an `acquire`
step is only enabled (returns `some`) when a token is available, which
is exactly when the Go receive would complete without blocking. -/

/-- One interaction with the token channel: a receive by `Wait`
(`acquire`) or the ticker-driven non-blocking send (`refill`). -/
inductive LimiterEvent
  | acquire
  | refill
deriving Repr, DecidableEq

/-- Effect of one event on the token count of a channel of capacity
`cap`: an acquire blocks (`none`) on an empty pool and otherwise takes a
token; a refill adds a token unless the pool is full, in which case the
token is silently dropped (`startRefill`'s `default` branch). -/
def limiterStep (cap tokens : Nat) : LimiterEvent → Option Nat
  | .acquire => if tokens = 0 then none else some (tokens - 1)
  | .refill => some (if tokens < cap then tokens + 1 else tokens)

/-- Run a sequence of events from a token count; `none` when some acquire
along the way would block. -/
def runLimiter (cap tokens : Nat) : List LimiterEvent → Option Nat
  | [] => some tokens
  | e :: es =>
    match limiterStep cap tokens e with
    | none => none
    | some t => runLimiter cap t es

/-- `getLimiter`'s prefill loop sends `requestsPerMinute` tokens into the
fresh channel, so the initial token count equals the capacity. -/
def newSourceLimiter (requestsPerMinute : Nat) : Nat := requestsPerMinute

/-- `getLimiter`'s ticker period: `time.Minute / requestsPerMinute`
(Go `Duration` division truncates), in nanoseconds; one `refill` event
fires per period. -/
def refillPeriod (requestsPerMinute : Nat) : Nat :=
  60000000000 / requestsPerMinute


/-! ## Source adapters (`remotive.go`, `remoteok.go`)

Only the pure field mapping from a decoded API payload to `models.Job`
is modelled; the HTTP fetch, JSON decoding and publication-date parsing
(which falls back to the wall clock) are inputs. -/

/-- `models.JobTypeFullTime`. -/
def JobTypeFullTime : String := "full-time"

/-- `models.JobTypePartTime`. -/
def JobTypePartTime : String := "part-time"

/-- `models.JobTypeContract`. -/
def JobTypeContract : String := "contract"

/-- `models.JobTypeFreelance`. -/
def JobTypeFreelance : String := "freelance"

/-- A decoded `RemotiveJob` payload entry (string fields only; the
numeric id is irrelevant to the mapping). -/
structure RemotiveJob where
  url : String
  title : String
  companyName : String
  category : String
  jobType : String
  candidateRequiredLocation : String
  salary : String
  description : String
deriving Repr, DecidableEq

/-- One word of `getJobCategory`'s formatting loop:
`strings.ToUpper(word[:1]) + strings.ToLower(word[1:])`; on the ASCII
words that occur, byte slicing coincides with character slicing. -/
def capitalizeWord (w : String) : String :=
  match w.data with
  | [] => w
  | c :: cs => ⟨c.toUpper :: cs.map Char.toLower⟩

/-- `strings.ReplaceAll(category, "-", " ")`: the pattern is a single
character, so the replacement is a character map. -/
def goReplaceDash (s : String) : String :=
  ⟨s.data.map (fun c => if c = '-' then ' ' else c)⟩

/-- `RemotiveSource.getJobCategory`: format a non-empty category
(hyphens to spaces, each word capitalized), else infer from the
lower-cased title. -/
def remotiveGetJobCategory (category title : String) : String :=
  if category ≠ "" then
    String.intercalate " " ((goFields (goReplaceDash category)).map capitalizeWord)
  else
    let t := lowerStr title
    if goContains t "frontend" ∨ goContains t "react" ∨ goContains t "vue" ∨
        goContains t "angular" then "Frontend Development"
    else if goContains t "backend" ∨ goContains t "golang" ∨ goContains t "go" ∨
        goContains t "python" then "Backend Development"
    else if goContains t "fullstack" ∨ goContains t "full-stack" ∨
        goContains t "full stack" then "Full Stack Development"
    else if goContains t "devops" ∨ goContains t "sre" then "DevOps"
    else if goContains t "data" ∨ goContains t "analyst" then "Data Science"
    else if goContains t "mobile" ∨ goContains t "ios" ∨ goContains t "android" then
      "Mobile Development"
    else if goContains t "design" ∨ goContains t "ux" ∨ goContains t "ui" then "Design"
    else "Technology"

/-- `RemotiveSource.getJobType`: substring checks on the lower-cased
Remotive job type, defaulting to full-time. -/
def remotiveGetJobType (jobType : String) : String :=
  let l := lowerStr jobType
  if goContains l "full_time" ∨ goContains l "full-time" then JobTypeFullTime
  else if goContains l "part_time" ∨ goContains l "part-time" then JobTypePartTime
  else if goContains l "contract" then JobTypeContract
  else if goContains l "freelance" then JobTypeFreelance
  else JobTypeFullTime

/-- The per-entry mapping of `RemotiveSource.FetchJobs` (the loop body):
location defaults to `"Remote"`, and description, salary and category are
replaced by a single space when empty. `parsedDate` is the outcome of
the multi-format publication-date parse (which falls back to the wall
clock), taken as an input. -/
def remotiveMapJob (rj : RemotiveJob) (parsedDate : Option Nat) : Job :=
  let location := if rj.candidateRequiredLocation = "" then "Remote"
                  else rj.candidateRequiredLocation
  let jobType := remotiveGetJobType rj.jobType
  let description := if rj.description = "" then " " else rj.description
  let salary := if rj.salary = "" then " " else rj.salary
  let cat0 := remotiveGetJobCategory rj.category rj.title
  let jobCategory := if cat0 = "" then " " else cat0
  { title := rj.title
    company := rj.companyName
    location := location
    url := rj.url
    description := description
    salary := salary
    postedDate := parsedDate
    source := "Remotive"
    jobCategory := jobCategory
    jobType := jobType }

/-- `RemotiveSource.FetchJobs` over a decoded payload: every entry is
mapped. -/
def remotiveMapJobs (rjs : List (RemotiveJob × Option Nat)) : List Job :=
  rjs.map (fun p => remotiveMapJob p.1 p.2)

/-- A decoded `RemoteOKJob` payload entry. -/
structure RemoteOKJob where
  id : String
  slug : String
  company : String
  position : String
  tags : List String
  description : String
  location : String
  url : String
  date : Nat
deriving Repr, DecidableEq

/-- The `categoryMap` of `RemoteOKSource.getJobCategory`, as a lookup on
the lower-cased tag. -/
def remoteOKCategoryOfTag : String → Option String
  | "backend" => some "Backend Development"
  | "frontend" => some "Frontend Development"
  | "fullstack" => some "Full Stack Development"
  | "full-stack" => some "Full Stack Development"
  | "devops" => some "DevOps"
  | "data" => some "Data Science"
  | "ml" => some "Machine Learning"
  | "ai" => some "Artificial Intelligence"
  | "mobile" => some "Mobile Development"
  | "ios" => some "Mobile Development"
  | "android" => some "Mobile Development"
  | "design" => some "Design"
  | "marketing" => some "Marketing"
  | "sales" => some "Sales"
  | _ => none

/-- The `techMap` of `RemoteOKSource.getJobCategory`. -/
def remoteOKTechOfTag : String → Option String
  | "golang" => some "Backend Development"
  | "go" => some "Backend Development"
  | "python" => some "Backend Development"
  | "java" => some "Backend Development"
  | "javascript" => some "Frontend Development"
  | "react" => some "Frontend Development"
  | "vue" => some "Frontend Development"
  | "angular" => some "Frontend Development"
  | _ => none

/-- `RemoteOKSource.getJobCategory`: first pass over the tags against the
category map, second pass against the technology map, else the default. -/
def remoteOKGetJobCategory (tags : List String) : String :=
  match tags.findSome? (fun t => remoteOKCategoryOfTag (lowerStr t)) with
  | some c => c
  | none =>
    match tags.findSome? (fun t => remoteOKTechOfTag (lowerStr t)) with
    | some c => c
    | none => "Technology"

/-- `RemoteOKSource.getJobType`: the switch over lower-cased tags,
defaulting to full-time. -/
def remoteOKGetJobType (tags : List String) : String :=
  match tags.findSome? (fun t =>
    match lowerStr t with
    | "full-time" => some JobTypeFullTime
    | "fulltime" => some JobTypeFullTime
    | "permanent" => some JobTypeFullTime
    | "part-time" => some JobTypePartTime
    | "parttime" => some JobTypePartTime
    | "contract" => some JobTypeContract
    | "contractor" => some JobTypeContract
    | "freelance" => some JobTypeContract
    | "internship" => some "internship"
    | "intern" => some "internship"
    | _ => none) with
  | some t => t
  | none => JobTypeFullTime

/-- The per-entry mapping of `RemoteOKSource.FetchJobs` (the loop body):
salary is hard-coded to the empty string, and an empty URL is replaced by
the slug-based link after construction. -/
def remoteOKMapJob (rj : RemoteOKJob) : Job :=
  let url := if rj.url = "" then "https://remoteok.com/remote-jobs/" ++ rj.slug
             else rj.url
  { title := rj.position
    company := rj.company
    location := rj.location
    url := url
    description := rj.description
    salary := ""
    postedDate := some rj.date
    source := "RemoteOK"
    jobCategory := remoteOKGetJobCategory rj.tags
    jobType := remoteOKGetJobType rj.tags }

/-- `RemoteOKSource.FetchJobs` over a decoded payload: the leading
metadata entry (empty id) is skipped, the rest are mapped. -/
def remoteOKMapJobs (rjs : List RemoteOKJob) : List Job :=
  (rjs.filter (fun rj => rj.id ≠ "")).map remoteOKMapJob

/-! ## Orchestrator (`power_scraper.go`)

`ScrapeAllSources` fans out one task per enabled source, collects one
`ScraperResult` per source from the results channel, deduplicates each
successful batch through the shared deduplicator, accumulates metrics,
and finally persists the merged unique records. The fan-in is modelled
by the list of per-source results in the order the collection loop
receives them (any order may occur); the channel, semaphore and locks
serialize exactly these effects in the Go code. -/

/-- Per-source counters (`SourceMetrics`); the `ResponseTime` and
`LastScraped` wall-clock fields are not modelled. -/
structure SourceMetrics where
  jobsScraped : Nat
  jobsSaved : Nat
  duplicates : Nat
  errors : Nat
deriving Repr, DecidableEq

/-- The zero value a Go map read yields for an absent source name. -/
def SourceMetrics.zero : SourceMetrics := ⟨0, 0, 0, 0⟩

/-- Global counters (`ScraperMetrics`); `SourcePerformance` is modelled
as a total function with the Go-map zero-value default, and the
`ScrapingDuration` wall-clock field is not modelled. -/
structure ScraperMetrics where
  totalJobsScraped : Nat
  totalJobsSaved : Nat
  totalDuplicates : Nat
  totalErrors : Nat
  sourcePerformance : String → SourceMetrics

/-- The metrics value installed by `NewPowerScraper`: all counters zero,
empty per-source map. -/
def initialMetrics : ScraperMetrics :=
  ⟨0, 0, 0, 0, fun _ => SourceMetrics.zero⟩

/-- Point update of the per-source map
(`ps.metrics.SourcePerformance[name] = v`). -/
def setSource (m : ScraperMetrics) (name : String) (v : SourceMetrics) : ScraperMetrics :=
  { m with sourcePerformance := fun x => if x = name then v else m.sourcePerformance x }

/-- One source's terminal outcome as received by the collection loop
(`ScraperResult`): its name, its fetched batch, and whether its task
ended in a terminal error (rate-limit cancellation or fetch failure
after all retries). The `Duration` field is not modelled. -/
structure SourceOutcome where
  source : String
  jobs : List Job
  failed : Bool
deriving Repr, DecidableEq

/-- The metric effect `scrapeSource` applies on terminal failure before
sending its result: the per-source error counter is incremented
(`sourceMetric.Errors++`). -/
def recordSourceError (m : ScraperMetrics) (name : String) : ScraperMetrics :=
  let sm := m.sourcePerformance name
  setSource m name { sm with errors := sm.errors + 1 }

/-- The collection loop of `ScrapeAllSources` over the drained results:
a failed result increments the global error counter (its per-source
error counter was already incremented inside `scrapeSource`) and is
skipped; a successful batch is deduplicated through the shared
deduplicator, its unique records appended to the merged list, the
cumulative scraped/duplicate counters increased, and the per-source
scraped/duplicate counters overwritten with this run's values. -/
def processResults (d : Deduplicator) (m : ScraperMetrics) :
    List SourceOutcome → Deduplicator × ScraperMetrics × List Job
  | [] => (d, m, [])
  | r :: rest =>
    if r.failed then
      let m1 := { m with totalErrors := m.totalErrors + 1 }
      processResults d (recordSourceError m1 r.source) rest
    else
      let p := RemoveDuplicates d r.jobs
      let dups := r.jobs.length - p.2.length
      let sm := m.sourcePerformance r.source
      let m1 := { m with
        totalJobsScraped := m.totalJobsScraped + r.jobs.length
        totalDuplicates := m.totalDuplicates + dups }
      let m2 := setSource m1 r.source
        { sm with jobsScraped := r.jobs.length, duplicates := dups }
      let rec1 := processResults p.1 m2 rest
      (rec1.1, rec1.2.1, p.2 ++ rec1.2.2)

/-- The deduplicator state after the collection loop, in isolation. -/
def cycleDedup (d : Deduplicator) : List SourceOutcome → Deduplicator
  | [] => d
  | r :: rest =>
    if r.failed then cycleDedup d rest
    else cycleDedup (RemoveDuplicates d r.jobs).1 rest

/-- The merged unique records (`allJobs`) of the collection loop, in
isolation: exactly what the persistence stage receives. -/
def cycleJobs (d : Deduplicator) : List SourceOutcome → List Job
  | [] => []
  | r :: rest =>
    if r.failed then cycleJobs d rest
    else (RemoveDuplicates d r.jobs).2 ++ cycleJobs (RemoveDuplicates d r.jobs).1 rest

/-- The persistence collaborator (`storage.Store`), by the success of
each of its calls: `SaveJobs` on a batch and `SaveJob` on one record. -/
structure StorageModel where
  saveManyOk : List Job → Bool
  saveOneOk : Job → Bool

/-- Structural helper for `chunks50`: the fuel bounds the number of
slices; every step consumes at least one record, so `l.length` fuel is
always enough and the zero-fuel case is unreachable. -/
def chunksGo : Nat → List Job → List (List Job)
  | _, [] => []
  | 0, _ :: _ => []
  | Nat.succ fuel, j :: rest => (j :: rest).take 50 :: chunksGo fuel ((j :: rest).drop 50)

/-- The batching of `saveJobs`: slices of `batchSize = 50` in order. -/
def chunks50 (l : List Job) : List (List Job) := chunksGo l.length l

/-- The batch loop of `PowerScraper.saveJobs`: try the batch save; on
failure fall back to saving each record individually, where individual
failures are logged and skipped; then check the cancellation signal and
abort with the context error if it has fired. Storage failures never
produce a non-`none` return - only cancellation does. -/
def saveJobsLoop (st : StorageModel) (cancelled : Bool) :
    List (List Job) → Option String
  | [] => none
  | batch :: rest =>
    let _fallback := if st.saveManyOk batch then [] else batch.map st.saveOneOk
    if cancelled then some "context canceled"
    else saveJobsLoop st cancelled rest

/-- `PowerScraper.saveJobs`: the batch loop over 50-record slices. The
cancellation signal is modelled as a boolean that is stable across the
call (the claims under study do not depend on mid-save cancellation). -/
def saveJobs (st : StorageModel) (cancelled : Bool) (jobs : List Job) : Option String :=
  saveJobsLoop st cancelled (chunks50 jobs)

/-- The orchestrator state that survives across cycles: the shared
deduplicator and the metrics aggregator (fields of `PowerScraper`). -/
structure CycleState where
  dedup : Deduplicator
  metrics : ScraperMetrics

/-- The scraper state right after `NewPowerScraper`. -/
def initialCycleState : CycleState := ⟨NewDeduplicator, initialMetrics⟩

/-- `PowerScraper.ScrapeAllSources`, given the drained per-source
results in their arrival order: error out if there are no enabled
sources (one result arrives per enabled source); otherwise run the
collection loop; if any unique records remain, persist them, failing
the cycle on a persistence error (the processed metrics and seen-state
are kept), and on success overwrite `TotalJobsSaved` with this cycle's
merged count. -/
def ScrapeAllSources (st : StorageModel) (cancelled : Bool)
    (results : List SourceOutcome) (s : CycleState) : Option String × CycleState :=
  if results = [] then (some "no enabled sources found", s)
  else
    let p := processResults s.dedup s.metrics results
    let allJobs := p.2.2
    if allJobs.length > 0 then
      match saveJobs st cancelled allJobs with
      | some err => (some ("failed to save jobs: " ++ err), ⟨p.1, p.2.1⟩)
      | none =>
        (none, ⟨p.1, { p.2.1 with totalJobsSaved := allJobs.length }⟩)
    else (none, ⟨p.1, p.2.1⟩)

/-- The inputs of one cycle: the storage behavior, the cancellation
signal, and the per-source results in arrival order. -/
structure CycleInput where
  store : StorageModel
  cancelled : Bool
  results : List SourceOutcome

/-- Consecutive cycles of one `PowerScraper` instance, as driven by
`runPeriodicScraping` in `main.go`: the state is threaded from cycle to
cycle and `Reset` is never called. -/
def runManyCycles (s : CycleState) (inputs : List CycleInput) : CycleState :=
  inputs.foldl (fun s i => (ScrapeAllSources i.store i.cancelled i.results s).2) s

/-! ## Lemmas about the deduplicator -/

theorem aux_seen_mono (l : List Job) :
    ∀ (seen : List String) (h : String), h ∈ seen → h ∈ (removeDuplicatesAux seen l).1 := by
  induction l with
  | nil => intro seen h hh; simpa [removeDuplicatesAux] using hh
  | cons job rest ih =>
    intro seen h hh
    by_cases hs : generateJobHash job ∈ seen
    · simpa [removeDuplicatesAux, hs] using ih seen h hh
    · simpa [removeDuplicatesAux, hs] using
        ih (generateJobHash job :: seen) h (List.mem_cons_of_mem _ hh)

theorem aux_mem_seen (l : List Job) :
    ∀ (seen : List String) (j : Job), j ∈ l →
      generateJobHash j ∈ (removeDuplicatesAux seen l).1 := by
  induction l with
  | nil => intro seen j hj; cases hj
  | cons job rest ih =>
    intro seen j hj
    by_cases hs : generateJobHash job ∈ seen
    · rcases List.mem_cons.mp hj with hj | hj
      · subst hj; simpa [removeDuplicatesAux, hs] using aux_seen_mono rest seen _ hs
      · simpa [removeDuplicatesAux, hs] using ih seen j hj
    · rcases List.mem_cons.mp hj with hj | hj
      · subst hj
        simpa [removeDuplicatesAux, hs] using
          aux_seen_mono rest (generateJobHash j :: seen) _ (List.mem_cons_self _ _)
      · simpa [removeDuplicatesAux, hs] using ih (generateJobHash job :: seen) j hj

theorem aux_kept (l : List Job) :
    ∀ (seen : List String) (j : Job), j ∈ (removeDuplicatesAux seen l).2 →
      j ∈ l ∧ generateJobHash j ∉ seen := by
  induction l with
  | nil => intro seen j hj; simp [removeDuplicatesAux] at hj
  | cons job rest ih =>
    intro seen j hj
    by_cases hs : generateJobHash job ∈ seen
    · simp only [removeDuplicatesAux, if_pos hs] at hj
      exact ⟨List.mem_cons_of_mem _ (ih seen j hj).1, (ih seen j hj).2⟩
    · simp only [removeDuplicatesAux, if_neg hs] at hj
      rcases List.mem_cons.mp hj with hj | hj
      · subst hj; exact ⟨List.mem_cons_self _ _, hs⟩
      · have h2 := ih (generateJobHash job :: seen) j hj
        exact ⟨List.mem_cons_of_mem _ h2.1,
          fun hmem => h2.2 (List.mem_cons_of_mem _ hmem)⟩

theorem aux_not_kept (l : List Job) (seen : List String) (j : Job)
    (hs : generateJobHash j ∈ seen) : j ∉ (removeDuplicatesAux seen l).2 :=
  fun hj => (aux_kept l seen j hj).2 hs

theorem aux_nodup (l : List Job) :
    ∀ seen : List String,
      ((removeDuplicatesAux seen l).2.map generateJobHash).Nodup ∧
      ∀ h ∈ (removeDuplicatesAux seen l).2.map generateJobHash, h ∉ seen := by
  induction l with
  | nil => intro seen; simp [removeDuplicatesAux]
  | cons job rest ih =>
    intro seen
    by_cases hs : generateJobHash job ∈ seen
    · simpa [removeDuplicatesAux, hs] using ih seen
    · have h2 := ih (generateJobHash job :: seen)
      simp only [removeDuplicatesAux, if_neg hs, List.map_cons]
      constructor
      · refine List.nodup_cons.mpr ⟨fun hmem => ?_, h2.1⟩
        exact (h2.2 _ hmem) (List.mem_cons_self _ _)
      · intro h hh
        rcases List.mem_cons.mp hh with hh | hh
        · subst hh; exact hs
        · exact fun hmem => (h2.2 _ hh) (List.mem_cons_of_mem _ hmem)

theorem aux_complete (l : List Job) :
    ∀ (seen : List String) (j : Job), j ∈ l →
      generateJobHash j ∈ seen ∨
      generateJobHash j ∈ (removeDuplicatesAux seen l).2.map generateJobHash := by
  induction l with
  | nil => intro seen j hj; cases hj
  | cons job rest ih =>
    intro seen j hj
    by_cases hs : generateJobHash job ∈ seen
    · rcases List.mem_cons.mp hj with hj | hj
      · subst hj; exact Or.inl hs
      · simpa [removeDuplicatesAux, hs] using ih seen j hj
    · simp only [removeDuplicatesAux, if_neg hs, List.map_cons]
      rcases List.mem_cons.mp hj with hj | hj
      · subst hj; exact Or.inr (List.mem_cons_self _ _)
      · rcases ih (generateJobHash job :: seen) j hj with hc | hc
        · rcases List.mem_cons.mp hc with hc | hc
          · exact Or.inr (by simp [hc])
          · exact Or.inl hc
        · exact Or.inr (List.mem_cons_of_mem _ hc)

theorem aux_first (l : List Job) :
    ∀ (seen : List String) (j : Job), j ∈ (removeDuplicatesAux seen l).2 →
      ∃ pre post, l = pre ++ j :: post ∧ generateJobHash j ∉ seen ∧
        ∀ x ∈ pre, generateJobHash x ≠ generateJobHash j := by
  induction l with
  | nil => intro seen j hj; simp [removeDuplicatesAux] at hj
  | cons job rest ih =>
    intro seen j hj
    by_cases hs : generateJobHash job ∈ seen
    · simp only [removeDuplicatesAux, if_pos hs] at hj
      obtain ⟨pre, post, heq, hns, hpre⟩ := ih seen j hj
      refine ⟨job :: pre, post, by simp [heq], hns, ?_⟩
      intro x hx
      rcases List.mem_cons.mp hx with hx | hx
      · subst hx; intro hcontra; exact hns (hcontra ▸ hs)
      · exact hpre x hx
    · simp only [removeDuplicatesAux, if_neg hs] at hj
      rcases List.mem_cons.mp hj with hj | hj
      · subst hj
        exact ⟨[], rest, rfl, hs, by simp⟩
      · obtain ⟨pre, post, heq, hns, hpre⟩ := ih (generateJobHash job :: seen) j hj
        have hnsj : generateJobHash j ∉ seen := fun h => hns (List.mem_cons_of_mem _ h)
        have hne : generateJobHash job ≠ generateJobHash j :=
          fun h => hns (h ▸ List.mem_cons_self _ _)
        refine ⟨job :: pre, post, by simp [heq], hnsj, ?_⟩
        intro x hx
        rcases List.mem_cons.mp hx with hx | hx
        · subst hx; exact hne
        · exact hpre x hx

theorem aux_append (l1 l2 : List Job) :
    ∀ seen : List String,
      removeDuplicatesAux seen (l1 ++ l2) =
        ((removeDuplicatesAux (removeDuplicatesAux seen l1).1 l2).1,
         (removeDuplicatesAux seen l1).2 ++
           (removeDuplicatesAux (removeDuplicatesAux seen l1).1 l2).2) := by
  induction l1 with
  | nil => intro seen; simp [removeDuplicatesAux]
  | cons job rest ih =>
    intro seen
    by_cases hs : generateJobHash job ∈ seen
    · simp only [List.cons_append, removeDuplicatesAux, if_pos hs]
      exact ih seen
    · simp only [List.cons_append, removeDuplicatesAux, if_neg hs, List.append_eq]
      rw [ih (generateJobHash job :: seen)]

/-- Processing a sequence of batches through one deduplicator's seen-state
in arrival order, collecting every kept record; the collection loop of
`ScrapeAllSources` does exactly this with the successful batches. -/
def runBatches (d : Deduplicator) : List (List Job) → Deduplicator × List Job
  | [] => (d, [])
  | b :: bs =>
    let p := RemoveDuplicates d b
    let q := runBatches p.1 bs
    (q.1, p.2 ++ q.2)

theorem runBatches_eq_join (bs : List (List Job)) :
    ∀ d : Deduplicator, runBatches d bs = RemoveDuplicates d bs.flatten := by
  induction bs with
  | nil => intro d; rfl
  | cons b bs ih =>
    intro d
    simp only [runBatches, RemoveDuplicates]
    rw [show (b :: bs).flatten = b ++ bs.flatten from rfl, aux_append b bs.flatten d.seenJobs]
    rw [ih ⟨(removeDuplicatesAux d.seenJobs b).1⟩]
    rfl

/-- A job as listed by one provider. -/
def jobA : Job :=
  { title := "Software Engineer", company := "Acme", location := "Remote",
    url := "https://remotive.com/j/1", description := "first listing",
    salary := "100k", postedDate := none, source := "Remotive",
    jobCategory := "Technology", jobType := "full-time" }

/-- The same job as listed by a second provider: identical normalized
title, company and location, different url, description, salary and
source. -/
def jobA2 : Job :=
  { jobA with
    url := "https://remoteok.com/j/9"
    description := "second listing"
    salary := " "
    source := "RemoteOK" }

/-- The same job again with casing and whitespace variations in the
normalized triple. -/
def jobA3 : Job :=
  { jobA2 with
    title := "  software ENGINEER"
    company := "ACME "
    location := " remote " }

/-- An unrelated job (distinct normalized triple). -/
def jobB : Job := { jobA with title := "Data Analyst" }

/-- C2: the claim states that exact-hash deduplication is independent
across the per-source batches of one cycle, so that two identical
records arriving in two different sources' batches both survive. On the
code, the two batches share the deduplicator's seen-state: the record
`jobA` survives its batch, and the identical record `jobA2` arriving in
the other source's batch is dropped. -/
theorem claim_C2_counterexample :
    (RemoveDuplicates NewDeduplicator [jobA]).2 = [jobA] ∧
    (RemoveDuplicates (RemoveDuplicates NewDeduplicator [jobA]).1 [jobA2]).2 = [] := by
  constructor
  · rfl
  · rfl

/-- C2 (amended): the batches of one cycle are deduplicated through one
shared seen-state, so whether a record survives depends on the records
processed earlier from other sources' batches: once a record is kept
from one batch, any record with the same composite key is dropped from
every later batch. -/
theorem claim_C2 :
    ∀ (d : Deduplicator) (b1 b2 : List Job) (j1 j2 : Job),
      j1 ∈ (RemoveDuplicates d b1).2 →
      generateJobHash j2 = generateJobHash j1 →
      j2 ∉ (RemoveDuplicates (RemoveDuplicates d b1).1 b2).2 := by
  intro d b1 b2 j1 j2 hkept hhash
  have hj1b : j1 ∈ b1 := (aux_kept b1 d.seenJobs j1 hkept).1
  have hseen : generateJobHash j1 ∈ (removeDuplicatesAux d.seenJobs b1).1 :=
    aux_mem_seen b1 d.seenJobs j1 hj1b
  exact aux_not_kept b2 _ j2 (hhash ▸ hseen)

theorem claim_C2_witness :
    jobA2 ∉ (RemoveDuplicates (RemoveDuplicates NewDeduplicator [jobA]).1 [jobA2]).2 :=
  claim_C2 NewDeduplicator [jobA] [jobA2] jobA jobA2 (by decide) (by decide)

/-- C3: across any sequence of batches processed through one fresh
deduplicator's seen-state, (1) at most one record survives per composite
key, (2) every key occurring in the input has a surviving record,
(3) every survivor sits at a first-occurrence position of its key in
arrival order, (4) the key depends only on the case-normalized,
whitespace-trimmed (title, company, location) triple, and (5) after a
record is processed, `IsDuplicate` answers true for any record with the
same key, regardless of its other fields. -/
theorem claim_C3 :
    (∀ bs : List (List Job),
      ((runBatches NewDeduplicator bs).2.map generateJobHash).Nodup) ∧
    (∀ (bs : List (List Job)) (j : Job), j ∈ bs.flatten →
      generateJobHash j ∈ (runBatches NewDeduplicator bs).2.map generateJobHash) ∧
    (∀ (bs : List (List Job)) (j : Job), j ∈ (runBatches NewDeduplicator bs).2 →
      ∃ pre post, bs.flatten = pre ++ j :: post ∧
        ∀ x ∈ pre, generateJobHash x ≠ generateJobHash j) ∧
    (∀ j1 j2 : Job,
      lowerStr (trimStr j1.title) = lowerStr (trimStr j2.title) →
      lowerStr (trimStr j1.company) = lowerStr (trimStr j2.company) →
      lowerStr (trimStr j1.location) = lowerStr (trimStr j2.location) →
      generateJobHash j1 = generateJobHash j2) ∧
    (∀ (d : Deduplicator) (b : List Job) (j1 j2 : Job), j1 ∈ b →
      generateJobHash j1 = generateJobHash j2 →
      IsDuplicate (RemoveDuplicates d b).1 j2 = true) := by
  refine ⟨?_, ?_, ?_, ?_, ?_⟩
  · intro bs
    rw [runBatches_eq_join]
    exact (aux_nodup bs.flatten NewDeduplicator.seenJobs).1
  · intro bs j hj
    rw [runBatches_eq_join]
    rcases aux_complete bs.flatten NewDeduplicator.seenJobs j hj with h | h
    · cases h
    · exact h
  · intro bs j hj
    rw [runBatches_eq_join] at hj
    obtain ⟨pre, post, heq, _, hpre⟩ := aux_first bs.flatten NewDeduplicator.seenJobs j hj
    exact ⟨pre, post, heq, hpre⟩
  · intro j1 j2 h1 h2 h3
    simp only [generateJobHash]
    rw [h1, h2, h3]
  · intro d b j1 j2 hj1 hhash
    have hseen : generateJobHash j1 ∈ (removeDuplicatesAux d.seenJobs b).1 :=
      aux_mem_seen b d.seenJobs j1 hj1
    simp only [IsDuplicate, RemoveDuplicates]
    exact decide_eq_true_eq.mpr (hhash ▸ hseen)

theorem claim_C3_witness :
    IsDuplicate (RemoveDuplicates NewDeduplicator [jobA]).1 jobA3 = true :=
  claim_C3.2.2.2.2 NewDeduplicator [jobA] jobA jobA3 (by decide) (by decide)

/-! ## Backoff: claims C1 -/

theorem backoff_default_formula (k : Nat) :
    calculateBackoffDelay defaultRetryConfig k =
      min (1000000000 * (k : Int) * 2) 30000000000 := by
  simp only [calculateBackoffDelay, defaultRetryConfig]
  have h : (((1000000000 : Int) : ℚ)) * (k : ℚ) * (2 : ℚ) =
      ((1000000000 * (k : Int) * 2 : Int) : ℚ) := by push_cast; ring
  rw [h, Int.floor_intCast]
  rcases le_or_lt (1000000000 * (k : Int) * 2) 30000000000 with hle | hlt
  · rw [if_neg (not_lt.mpr hle), min_eq_left hle]
  · rw [if_pos hlt, min_eq_right hlt.le]

/-- C1: the claim's formula and its first two examples hold, but its
third does not: under the defaults the delay before attempt 10 is
`min(1s × 10 × 2.0, 30s) = 20s`, not the claimed 30s (the cap is not
reached until attempt 15). -/
theorem claim_C1_counterexample :
    calculateBackoffDelay defaultRetryConfig 10 = 20000000000 ∧
    (20000000000 : Int) ≠ 30000000000 := by
  constructor
  · rw [backoff_default_formula]; norm_num
  · decide

/-- C1 (amended): for every attempt k ≥ 1 the delay equals
`min(initialDelay × k × backoffFactor, maxDelay)`; with the defaults the
delay is 2s for attempt 1, 4s for attempt 2, 20s for attempt 10, and the
30s cap first applies at attempt 15. -/
theorem claim_C1 :
    (∀ k : Nat, 1 ≤ k →
      calculateBackoffDelay defaultRetryConfig k =
        min (1000000000 * (k : Int) * 2) 30000000000) ∧
    calculateBackoffDelay defaultRetryConfig 1 = 2000000000 ∧
    calculateBackoffDelay defaultRetryConfig 2 = 4000000000 ∧
    calculateBackoffDelay defaultRetryConfig 10 = 20000000000 ∧
    calculateBackoffDelay defaultRetryConfig 15 = 30000000000 := by
  refine ⟨fun k _ => backoff_default_formula k, ?_, ?_, ?_, ?_⟩ <;>
    rw [backoff_default_formula] <;> norm_num

theorem claim_C1_witness :
    calculateBackoffDelay defaultRetryConfig 3 =
      min (1000000000 * ((3 : Nat) : Int) * 2) 30000000000 :=
  claim_C1.1 3 (by norm_num)

/-! ## String similarity: claims C6 and C7 -/

/-- C6: the claim derives `similarity("", "") = 0` from the either-empty
rule, but in the code the identity check precedes the empty check, so
two empty (identical) strings score 1. -/
theorem claim_C6_counterexample :
    stringSimilarity "" "" = 1 ∧ (1 : ℚ) ≠ 0 := by
  constructor
  · simp [stringSimilarity]
  · norm_num

/-- C6 (amended): identical strings score 1.0 — including two empty
strings, since the identity check runs first — and the either-empty rule
yields 0.0 only for non-identical strings, i.e. when exactly one of the
two is empty. -/
theorem claim_C6 :
    (∀ s : String, stringSimilarity s s = 1) ∧
    (∀ a b : String, a ≠ b → (a = "" ∨ b = "") → stringSimilarity a b = 0) := by
  constructor
  · intro s; simp [stringSimilarity]
  · intro a b hne he
    simp only [stringSimilarity]
    rw [if_neg hne, if_pos he]

theorem claim_C6_witness : stringSimilarity "a" "" = 0 :=
  claim_C6.2 "a" "" (by decide) (Or.inr rfl)

theorem filter_mem_card_comm (s t : Finset String) :
    (t.filter (fun w => w ∈ s)).card = (s.filter (fun w => w ∈ t)).card := by
  rw [Finset.filter_mem_eq_inter, Finset.filter_mem_eq_inter, Finset.inter_comm]

theorem filter_union_card_comm (s t : Finset String) :
    s.card + (t.filter (fun w => w ∉ s)).card =
      t.card + (s.filter (fun w => w ∉ t)).card := by
  rw [← Finset.sdiff_eq_filter s t, ← Finset.sdiff_eq_filter t s]
  have h1 : s.card + (t \ s).card = (t ∪ s).card := by
    rw [add_comm]; exact Finset.card_sdiff_add_card t s
  have h2 : t.card + (s \ t).card = (s ∪ t).card := by
    rw [add_comm]; exact Finset.card_sdiff_add_card s t
  rw [h1, h2, Finset.union_comm]

/-- C7: `stringSimilarity` is symmetric, although the union size is
computed asymmetrically (set A's cardinality plus the words of set B
absent from A): that quantity is the cardinality of the union of the two
word sets, and the intersection count is symmetric as well. -/
theorem claim_C7 : ∀ a b : String, stringSimilarity a b = stringSimilarity b a := by
  intro a b
  by_cases hab : a = b
  · rw [hab]
  · have hba : ¬ b = a := fun h => hab h.symm
    simp only [stringSimilarity]
    rw [if_neg hab, if_neg hba]
    by_cases he : a = "" ∨ b = ""
    · rw [if_pos he, if_pos he.symm]
    · have he2 : ¬ (b = "" ∨ a = "") := fun h => he h.symm
      rw [if_neg he, if_neg he2]
      by_cases hw : goFields (lowerStr a) = [] ∨ goFields (lowerStr b) = []
      · rw [if_pos hw, if_pos hw.symm]
      · have hw2 : ¬ (goFields (lowerStr b) = [] ∨ goFields (lowerStr a) = []) :=
          fun h => hw h.symm
        rw [if_neg hw, if_neg hw2]
        rw [filter_mem_card_comm (goFields (lowerStr a)).toFinset
          (goFields (lowerStr b)).toFinset]
        rw [filter_union_card_comm (goFields (lowerStr a)).toFinset
          (goFields (lowerStr b)).toFinset]

/-! ## Rate limiter: claim C5 -/

theorem limiterStep_le (cap t t' : Nat) (e : LimiterEvent) (hcap : t ≤ cap)
    (hstep : limiterStep cap t e = some t') : t' ≤ cap := by
  cases e with
  | acquire =>
    simp only [limiterStep] at hstep
    split at hstep
    · exact Option.noConfusion hstep
    · injection hstep with h; omega
  | refill =>
    simp only [limiterStep] at hstep
    injection hstep with h
    split at h <;> omega

theorem runLimiter_le (es : List LimiterEvent) :
    ∀ (cap t t' : Nat), t ≤ cap → runLimiter cap t es = some t' → t' ≤ cap := by
  induction es with
  | nil =>
    intro cap t t' h hrun
    simp only [runLimiter] at hrun
    injection hrun with h2
    omega
  | cons e es ih =>
    intro cap t t' h hrun
    cases hstep : limiterStep cap t e with
    | none =>
      simp only [runLimiter, hstep] at hrun
      exact Option.noConfusion hrun
    | some t1 =>
      simp only [runLimiter, hstep] at hrun
      exact ih cap t1 t' (limiterStep_le cap t t1 e h hstep) hrun

theorem drainTokens (k : Nat) :
    ∀ cap, runLimiter cap k (List.replicate k LimiterEvent.acquire) = some 0 := by
  induction k with
  | zero => intro cap; rfl
  | succ k ih =>
    intro cap
    have hstep : limiterStep cap (k + 1) LimiterEvent.acquire = some k := by
      simp [limiterStep]
    simp only [List.replicate_succ, runLimiter, hstep]
    exact ih cap

theorem runLimiter_append (l1 l2 : List LimiterEvent) :
    ∀ cap t, runLimiter cap t (l1 ++ l2) =
      (runLimiter cap t l1).bind (fun t1 => runLimiter cap t1 l2) := by
  induction l1 with
  | nil => intro cap t; rfl
  | cons e es ih =>
    intro cap t
    cases hstep : limiterStep cap t e with
    | none => simp only [List.cons_append, runLimiter, hstep, Option.bind]
    | some t1 =>
      simp only [List.cons_append, runLimiter, hstep, Option.some_bind, List.append_eq, ih]

/-- C5: a source limiter of capacity n > 0 starts with exactly n tokens,
never holds more than n tokens along any event sequence (a refill into a
full pool is dropped), admits the first n acquisitions immediately,
blocks the (n+1)th acquisition while no refill tick has occurred, and
admits it once one refill tick (one `60s/n` ticker period) has fired. -/
theorem claim_C5 :
    ∀ n : Nat, 0 < n →
      newSourceLimiter n = n ∧
      (∀ (t : Nat) (es : List LimiterEvent) (t' : Nat),
        t ≤ n → runLimiter n t es = some t' → t' ≤ n) ∧
      runLimiter n (newSourceLimiter n) (List.replicate n LimiterEvent.acquire) = some 0 ∧
      runLimiter n (newSourceLimiter n)
        (List.replicate (n + 1) LimiterEvent.acquire) = none ∧
      runLimiter n (newSourceLimiter n)
        (List.replicate n LimiterEvent.acquire ++
          [LimiterEvent.refill, LimiterEvent.acquire]) = some 0 := by
  intro n hn
  refine ⟨rfl, fun t es t' ht hrun => runLimiter_le es n t t' ht hrun, drainTokens n n, ?_, ?_⟩
  · simp only [newSourceLimiter, List.replicate_succ', runLimiter_append, drainTokens n n,
      Option.some_bind]
    rfl
  · simp only [newSourceLimiter, runLimiter_append, drainTokens n n, Option.some_bind]
    simp [runLimiter, limiterStep, hn]

theorem claim_C5_witness :
    runLimiter 3 (newSourceLimiter 3) (List.replicate (3 + 1) LimiterEvent.acquire) = none :=
  (claim_C5 3 (by norm_num)).2.2.2.1

/-- A store that accepts every save call. -/
def okStore : StorageModel := ⟨fun _ => true, fun _ => true⟩

/-- A store that rejects every batch save and every individual save. -/
def failStore : StorageModel := ⟨fun _ => false, fun _ => false⟩

/-- One successful source result carrying `jobA`. -/
def outcomeA : SourceOutcome := ⟨"Remotive", [jobA], false⟩

/-- One full cycle input: accepting store, no cancellation, one
successful source. -/
def inputA : CycleInput := ⟨okStore, false, [outcomeA]⟩

/-! ## Orchestrator error policy: claim C4 -/

theorem saveJobsLoop_false (st : StorageModel) (bs : List (List Job)) :
    saveJobsLoop st false bs = none := by
  induction bs with
  | nil => rfl
  | cons b rest ih => simp [saveJobsLoop, ih]

theorem saveJobs_none_iff (st : StorageModel) (cancelled : Bool) (jobs : List Job) :
    saveJobs st cancelled jobs = none ↔ (cancelled = false ∨ jobs = []) := by
  cases cancelled
  · simp [saveJobs, saveJobsLoop_false]
  · cases jobs with
    | nil => simp [saveJobs, chunks50, saveJobsLoop]
    | cons j rest =>
      constructor
      · intro h
        simp [saveJobs, chunks50, chunksGo, saveJobsLoop] at h
      · intro h
        rcases h with h | h
        · exact Bool.noConfusion h
        · exact List.noConfusion h

theorem processResults_dedup (rs : List SourceOutcome) :
    ∀ (d : Deduplicator) (m : ScraperMetrics),
      (processResults d m rs).1 = cycleDedup d rs := by
  induction rs with
  | nil => intro d m; rfl
  | cons r rest ih =>
    intro d m
    cases hf : r.failed <;> simp [processResults, cycleDedup, hf, ih]

theorem processResults_jobs (rs : List SourceOutcome) :
    ∀ (d : Deduplicator) (m : ScraperMetrics),
      (processResults d m rs).2.2 = cycleJobs d rs := by
  induction rs with
  | nil => intro d m; rfl
  | cons r rest ih =>
    intro d m
    cases hf : r.failed <;> simp [processResults, cycleJobs, hf, ih]

/-- C4: the claim makes a fatally rejected persistence stage (batch
save and every individual fallback failing) a cycle-level error, but
`saveJobs` ignores every storage rejection: with a store that rejects
all batch and individual saves and no cancellation, the cycle still
returns no error. -/
theorem claim_C4_counterexample :
    failStore.saveManyOk [jobA] = false ∧ failStore.saveOneOk jobA = false ∧
    (ScrapeAllSources failStore false [outcomeA] initialCycleState).1 = none := by
  exact ⟨rfl, rfl, rfl⟩

/-- C4 (amended): `ScrapeAllSources` returns an error exactly when the
set of enabled sources is empty, or when unique records were collected
and the cancellation signal has fired during the persistence stage; for
every storage behavior, storage rejections never propagate, and
per-source fetch failures never fail the cycle. -/
theorem claim_C4 :
    ∀ (st : StorageModel) (cancelled : Bool) (results : List SourceOutcome)
      (s : CycleState),
      (ScrapeAllSources st cancelled results s).1 ≠ none ↔
        (results = [] ∨ (cycleJobs s.dedup results ≠ [] ∧ cancelled = true)) := by
  intro st cancelled results s
  by_cases hres : results = []
  · simp [ScrapeAllSources, hres]
  · simp only [ScrapeAllSources, if_neg hres, processResults_jobs]
    cases hjobs : cycleJobs s.dedup results with
    | nil => simp [hres]
    | cons j rest =>
      have hlen : (j :: rest).length > 0 := by simp
      rw [if_pos hlen]
      cases cancelled with
      | false =>
        have hsave : saveJobs st false (j :: rest) = none :=
          (saveJobs_none_iff st false (j :: rest)).mpr (Or.inl rfl)
        rw [hsave]
        simp [hres]
      | true =>
        cases hsave : saveJobs st true (j :: rest) with
        | none =>
          have := (saveJobs_none_iff st true (j :: rest)).mp hsave
          rcases this with h | h
          · exact Bool.noConfusion h
          · exact List.noConfusion h
        | some err => simp [hres]

/-! ## Adapter field invariants: claim C9 -/

/-- A concrete (non-metadata) RemoteOK payload entry. -/
def rokJob : RemoteOKJob :=
  { id := "1", slug := "dev-1", company := "Acme", position := "Dev",
    tags := [], description := "great role", location := "Berlin",
    url := "", date := 5 }

/-- C9: the claim requires every adapter-produced record to carry
non-empty description, salary and category; the RemoteOK adapter
hard-codes the salary to the empty string, so any RemoteOK record
violates it. -/
theorem claim_C9_counterexample :
    rokJob.id ≠ "" ∧ (remoteOKMapJobs [rokJob]).map Job.salary = [""] := by
  exact ⟨by decide, rfl⟩

/-- C9 (amended): every record produced by the Remotive adapter carries
a non-empty description, salary and category (a single-space placeholder
stands in for a missing value), but the RemoteOK adapter always sets the
salary to the empty string (and passes the description through as-is),
so the non-empty invariant holds only for the Remotive adapter. -/
theorem claim_C9 :
    (∀ (rj : RemotiveJob) (pd : Option Nat),
      (remotiveMapJob rj pd).description ≠ "" ∧
      (remotiveMapJob rj pd).salary ≠ "" ∧
      (remotiveMapJob rj pd).jobCategory ≠ "") ∧
    (∀ rj : RemoteOKJob, (remoteOKMapJob rj).salary = "") := by
  constructor
  · intro rj pd
    refine ⟨?_, ?_, ?_⟩
    · by_cases h : rj.description = "" <;> simp [remotiveMapJob, h]
    · by_cases h : rj.salary = "" <;> simp [remotiveMapJob, h]
    · by_cases h : remotiveGetJobCategory rj.category rj.title = "" <;>
        simp [remotiveMapJob, h]
  · intro rj
    rfl

/-! ## Seen-state persistence across cycles: claim C10 -/

theorem cycleDedup_mono (rs : List SourceOutcome) :
    ∀ (d : Deduplicator) (h : String), h ∈ d.seenJobs →
      h ∈ (cycleDedup d rs).seenJobs := by
  induction rs with
  | nil => intro d h hh; exact hh
  | cons r rest ih =>
    intro d h hh
    cases hf : r.failed
    · simp only [cycleDedup, hf, Bool.false_eq_true, if_false]
      exact ih (RemoveDuplicates d r.jobs).1 h (aux_seen_mono r.jobs d.seenJobs h hh)
    · simp only [cycleDedup, hf, if_true]
      exact ih d h hh

theorem cycleJobs_mem_seen (rs : List SourceOutcome) :
    ∀ (d : Deduplicator) (j : Job), j ∈ cycleJobs d rs →
      generateJobHash j ∈ (cycleDedup d rs).seenJobs := by
  induction rs with
  | nil => intro d j hj; cases hj
  | cons r rest ih =>
    intro d j hj
    cases hf : r.failed
    · simp only [cycleJobs, hf, Bool.false_eq_true, if_false] at hj
      simp only [cycleDedup, hf, Bool.false_eq_true, if_false]
      rcases List.mem_append.mp hj with hj | hj
      · have hjb : j ∈ r.jobs := (aux_kept r.jobs d.seenJobs j hj).1
        exact cycleDedup_mono rest (RemoveDuplicates d r.jobs).1 _
          (aux_mem_seen r.jobs d.seenJobs j hjb)
      · exact ih (RemoveDuplicates d r.jobs).1 j hj
    · simp only [cycleJobs, hf, if_true] at hj
      simp only [cycleDedup, hf, if_true]
      exact ih d j hj

theorem cycleJobs_not_mem (rs : List SourceOutcome) :
    ∀ (d : Deduplicator) (j : Job), generateJobHash j ∈ d.seenJobs →
      j ∉ cycleJobs d rs := by
  induction rs with
  | nil => intro d j _ hj; cases hj
  | cons r rest ih =>
    intro d j hseen hj
    cases hf : r.failed
    · simp only [cycleJobs, hf, Bool.false_eq_true, if_false] at hj
      rcases List.mem_append.mp hj with hj | hj
      · exact aux_not_kept r.jobs d.seenJobs j hseen hj
      · exact ih (RemoveDuplicates d r.jobs).1 j
          (aux_seen_mono r.jobs d.seenJobs _ hseen) hj
    · simp only [cycleJobs, hf, if_true] at hj
      exact ih d j hseen hj

theorem scrape_dedup (st : StorageModel) (cancelled : Bool)
    (rs : List SourceOutcome) (s : CycleState) :
    (ScrapeAllSources st cancelled rs s).2.dedup = cycleDedup s.dedup rs := by
  by_cases hres : rs = []
  · subst hres
    simp [ScrapeAllSources, cycleDedup]
  · simp only [ScrapeAllSources, if_neg hres]
    split
    · split <;> simp [processResults_dedup]
    · simp [processResults_dedup]

theorem runMany_dedup_mono (inputs : List CycleInput) :
    ∀ (s : CycleState) (h : String), h ∈ s.dedup.seenJobs →
      h ∈ (runManyCycles s inputs).dedup.seenJobs := by
  induction inputs with
  | nil => intro s h hh; exact hh
  | cons i rest ih =>
    intro s h hh
    simp only [runManyCycles, List.foldl_cons]
    refine ih (ScrapeAllSources i.store i.cancelled i.results s).2 h ?_
    rw [scrape_dedup]
    exact cycleDedup_mono i.results s.dedup h hh

/-- C10: the deduplicator's seen-state is threaded unchanged through
`ScrapeAllSources` and across any number of later cycles (`Reset` is
never called by the orchestrator), so once a record was kept in some
cycle, any record with the same composite key arriving in any later
cycle is dropped and is never part of the records submitted to
persistence. -/
theorem claim_C10 :
    ∀ (s : CycleState) (i1 : CycleInput) (mids : List CycleInput)
      (results2 : List SourceOutcome) (j1 j2 : Job),
      j1 ∈ cycleJobs s.dedup i1.results →
      generateJobHash j2 = generateJobHash j1 →
      j2 ∉ cycleJobs
        (runManyCycles (ScrapeAllSources i1.store i1.cancelled i1.results s).2 mids).dedup
        results2 := by
  intro s i1 mids results2 j1 j2 hkept hhash
  have h1 : generateJobHash j1 ∈ (cycleDedup s.dedup i1.results).seenJobs :=
    cycleJobs_mem_seen i1.results s.dedup j1 hkept
  have h2 : generateJobHash j1 ∈
      (ScrapeAllSources i1.store i1.cancelled i1.results s).2.dedup.seenJobs := by
    rw [scrape_dedup]
    exact h1
  have h3 := runMany_dedup_mono mids _ _ h2
  exact cycleJobs_not_mem results2 _ j2 (hhash ▸ h3)

theorem claim_C10_witness :
    jobA2 ∉ cycleJobs
      (runManyCycles (ScrapeAllSources inputA.store inputA.cancelled inputA.results
        initialCycleState).2 []).dedup [⟨"RemoteOK", [jobA2], false⟩] :=
  claim_C10 initialCycleState inputA [] [⟨"RemoteOK", [jobA2], false⟩] jobA jobA2
    (by decide) (by decide)

/-! ## Metrics accumulation: claim C8 -/

/-- Records fetched by the successful sources of one result list. -/
def fetchedCount : List SourceOutcome → Nat
  | [] => 0
  | r :: rest => (if r.failed then 0 else r.jobs.length) + fetchedCount rest

/-- Duplicates dropped while processing one result list from a given
seen-state. -/
def dupCount (d : Deduplicator) : List SourceOutcome → Nat
  | [] => 0
  | r :: rest =>
    if r.failed then dupCount d rest
    else (r.jobs.length - (RemoveDuplicates d r.jobs).2.length) +
      dupCount (RemoveDuplicates d r.jobs).1 rest

/-- Failed sources in one result list. -/
def errorCount : List SourceOutcome → Nat
  | [] => 0
  | r :: rest => (if r.failed then 1 else 0) + errorCount rest

/-- Failed results carrying a given source name. -/
def sourceErrorCount (x : String) : List SourceOutcome → Nat
  | [] => 0
  | r :: rest =>
    (if r.failed = true ∧ r.source = x then 1 else 0) + sourceErrorCount x rest

theorem processResults_scraped (rs : List SourceOutcome) :
    ∀ (d : Deduplicator) (m : ScraperMetrics),
      (processResults d m rs).2.1.totalJobsScraped =
        m.totalJobsScraped + fetchedCount rs := by
  induction rs with
  | nil => intro d m; simp [processResults, fetchedCount]
  | cons r rest ih =>
    intro d m
    cases hf : r.failed <;>
      simp [processResults, fetchedCount, hf, recordSourceError, setSource, ih] <;> omega

theorem processResults_dups (rs : List SourceOutcome) :
    ∀ (d : Deduplicator) (m : ScraperMetrics),
      (processResults d m rs).2.1.totalDuplicates =
        m.totalDuplicates + dupCount d rs := by
  induction rs with
  | nil => intro d m; simp [processResults, dupCount]
  | cons r rest ih =>
    intro d m
    cases hf : r.failed <;>
      simp [processResults, dupCount, hf, recordSourceError, setSource, ih] <;> omega

theorem processResults_errors (rs : List SourceOutcome) :
    ∀ (d : Deduplicator) (m : ScraperMetrics),
      (processResults d m rs).2.1.totalErrors = m.totalErrors + errorCount rs := by
  induction rs with
  | nil => intro d m; simp [processResults, errorCount]
  | cons r rest ih =>
    intro d m
    cases hf : r.failed <;>
      simp [processResults, errorCount, hf, recordSourceError, setSource, ih] <;> omega

theorem processResults_perf_errors (rs : List SourceOutcome) :
    ∀ (x : String) (d : Deduplicator) (m : ScraperMetrics),
      ((processResults d m rs).2.1.sourcePerformance x).errors =
        (m.sourcePerformance x).errors + sourceErrorCount x rs := by
  induction rs with
  | nil => intro x d m; simp [processResults, sourceErrorCount]
  | cons r rest ih =>
    intro x d m
    by_cases hx : x = r.source
    · subst hx
      cases hf : r.failed <;>
        simp [processResults, sourceErrorCount, hf, recordSourceError,
          setSource, ih] <;> omega
    · have hx2 : ¬ r.source = x := fun h => hx h.symm
      cases hf : r.failed <;>
        simp [processResults, sourceErrorCount, hf, hx, hx2, recordSourceError,
          setSource, ih]

theorem processResults_saved (rs : List SourceOutcome) :
    ∀ (d : Deduplicator) (m : ScraperMetrics),
      (processResults d m rs).2.1.totalJobsSaved = m.totalJobsSaved := by
  induction rs with
  | nil => intro d m; simp [processResults]
  | cons r rest ih =>
    intro d m
    cases hf : r.failed <;>
      simp [processResults, hf, recordSourceError, setSource, ih]

theorem scrape_perf (st : StorageModel) (c : Bool) (rs : List SourceOutcome)
    (s : CycleState) (hres : rs ≠ []) :
    (ScrapeAllSources st c rs s).2.metrics.sourcePerformance =
      (processResults s.dedup s.metrics rs).2.1.sourcePerformance := by
  simp only [ScrapeAllSources, if_neg hres]
  split
  · split <;> rfl
  · rfl

theorem scrape_scraped (st : StorageModel) (c : Bool) (rs : List SourceOutcome)
    (s : CycleState) :
    (ScrapeAllSources st c rs s).2.metrics.totalJobsScraped =
      s.metrics.totalJobsScraped + fetchedCount rs := by
  by_cases hres : rs = []
  · subst hres; simp [ScrapeAllSources, fetchedCount]
  · simp only [ScrapeAllSources, if_neg hres]
    split
    · split <;> simp [processResults_scraped]
    · simp [processResults_scraped]

theorem scrape_dups (st : StorageModel) (c : Bool) (rs : List SourceOutcome)
    (s : CycleState) :
    (ScrapeAllSources st c rs s).2.metrics.totalDuplicates =
      s.metrics.totalDuplicates + dupCount s.dedup rs := by
  by_cases hres : rs = []
  · subst hres; simp [ScrapeAllSources, dupCount]
  · simp only [ScrapeAllSources, if_neg hres]
    split
    · split <;> simp [processResults_dups]
    · simp [processResults_dups]

theorem scrape_errors (st : StorageModel) (c : Bool) (rs : List SourceOutcome)
    (s : CycleState) :
    (ScrapeAllSources st c rs s).2.metrics.totalErrors =
      s.metrics.totalErrors + errorCount rs := by
  by_cases hres : rs = []
  · subst hres; simp [ScrapeAllSources, errorCount]
  · simp only [ScrapeAllSources, if_neg hres]
    split
    · split <;> simp [processResults_errors]
    · simp [processResults_errors]

/-- Two consecutive one-source cycles, each fetching one exact duplicate
pair: `jobA` twice in the first, the distinct `jobB` twice in the
second, all saves accepted. Each cycle fetches 2 records, drops 1
duplicate and saves 1 unique record. -/
def c8cycle1 : CycleState :=
  (ScrapeAllSources okStore false [⟨"Remotive", [jobA, jobA], false⟩] initialCycleState).2

def c8cycle2 : CycleState :=
  (ScrapeAllSources okStore false [⟨"Remotive", [jobB, jobB], false⟩] c8cycle1).2

/-- C8: the claim makes all four global counters and all per-source
counters cumulative, but after two cycles that each fetched a duplicate
pair (2 records, 1 duplicate, 1 saved), the cumulative counters read
scraped 4 and duplicates 2 while `TotalJobsSaved` is still 1 (assigned,
not accumulated) and the per-source `JobsScraped` and `Duplicates` are
2 and 1 (the last run's values), not 4 and 2. -/
theorem claim_C8_counterexample :
    c8cycle1.metrics.totalJobsSaved = 1 ∧
    (c8cycle1.metrics.sourcePerformance "Remotive").duplicates = 1 ∧
    c8cycle2.metrics.totalJobsScraped = 4 ∧
    c8cycle2.metrics.totalDuplicates = 2 ∧
    c8cycle2.metrics.totalJobsSaved = 1 ∧
    (c8cycle2.metrics.sourcePerformance "Remotive").jobsScraped = 2 ∧
    (c8cycle2.metrics.sourcePerformance "Remotive").duplicates = 1 := by
  exact ⟨rfl, rfl, rfl, rfl, rfl, rfl, rfl⟩

/-- C8 (amended): the global fetched, duplicate and error counters and
the per-source error counter are cumulative — each cycle adds its
deltas — but `TotalJobsSaved` is overwritten with the persisting
cycle's merged count and left untouched by a cycle that saves nothing,
and the per-source `JobsScraped` and `Duplicates` are overwritten with
that source's last-run values. -/
theorem claim_C8 :
    (∀ (st : StorageModel) (c : Bool) (rs : List SourceOutcome) (s : CycleState),
      (ScrapeAllSources st c rs s).2.metrics.totalJobsScraped =
        s.metrics.totalJobsScraped + fetchedCount rs) ∧
    (∀ (st : StorageModel) (c : Bool) (rs : List SourceOutcome) (s : CycleState),
      (ScrapeAllSources st c rs s).2.metrics.totalDuplicates =
        s.metrics.totalDuplicates + dupCount s.dedup rs) ∧
    (∀ (st : StorageModel) (c : Bool) (rs : List SourceOutcome) (s : CycleState),
      (ScrapeAllSources st c rs s).2.metrics.totalErrors =
        s.metrics.totalErrors + errorCount rs) ∧
    (∀ (st : StorageModel) (c : Bool) (rs : List SourceOutcome) (s : CycleState)
      (x : String), rs ≠ [] →
      ((ScrapeAllSources st c rs s).2.metrics.sourcePerformance x).errors =
        (s.metrics.sourcePerformance x).errors + sourceErrorCount x rs) ∧
    (∀ (st : StorageModel) (rs : List SourceOutcome) (s : CycleState),
      rs ≠ [] → cycleJobs s.dedup rs ≠ [] →
      (ScrapeAllSources st false rs s).2.metrics.totalJobsSaved =
        (cycleJobs s.dedup rs).length) ∧
    (∀ (st : StorageModel) (c : Bool) (s : CycleState) (x : String) (js : List Job),
      ((ScrapeAllSources st c [⟨x, js, false⟩] s).2.metrics.sourcePerformance x).jobsScraped =
        js.length ∧
      ((ScrapeAllSources st c [⟨x, js, false⟩] s).2.metrics.sourcePerformance x).duplicates =
        js.length - (RemoveDuplicates s.dedup js).2.length) ∧
    (∀ (st : StorageModel) (c : Bool) (rs : List SourceOutcome) (s : CycleState),
      cycleJobs s.dedup rs = [] →
      (ScrapeAllSources st c rs s).2.metrics.totalJobsSaved =
        s.metrics.totalJobsSaved) := by
  refine ⟨scrape_scraped, scrape_dups, scrape_errors, ?_, ?_, ?_, ?_⟩
  · intro st c rs s x hres
    rw [scrape_perf st c rs s hres]
    exact processResults_perf_errors rs x s.dedup s.metrics
  · intro st rs s hres hjobs
    simp only [ScrapeAllSources, if_neg hres, processResults_jobs]
    have hlen : (cycleJobs s.dedup rs).length > 0 := List.length_pos.mpr hjobs
    rw [if_pos hlen]
    have hsave : saveJobs st false (cycleJobs s.dedup rs) = none :=
      (saveJobs_none_iff st false (cycleJobs s.dedup rs)).mpr (Or.inl rfl)
    rw [hsave]
  · intro st c s x js
    rw [scrape_perf st c [⟨x, js, false⟩] s (by simp)]
    constructor <;> simp [processResults, setSource]
  · intro st c rs s hjobs
    by_cases hres : rs = []
    · subst hres
      simp [ScrapeAllSources]
    · simp only [ScrapeAllSources, if_neg hres, processResults_jobs, hjobs]
      simp [processResults_saved]

theorem claim_C8_witness :
    (ScrapeAllSources okStore false [outcomeA] initialCycleState).2.metrics.totalJobsSaved =
      (cycleJobs initialCycleState.dedup [outcomeA]).length :=
  claim_C8.2.2.2.2.1 okStore [outcomeA] initialCycleState (by decide) (by decide)
